import Mathlib

/-!
Shallow embedding of `cachet/cache.py`: a function-level memoization layer
with three interchangeable backends (in-memory dict, gzip files, sqlite),
a statistics-tracking generic layer, and a decorator that wraps a callable.

Modelling conventions:
* Timestamps (`time.time()`, `ttl`, expirations) are `Int`; the code only
  compares them with `<`, so any linearly ordered instant type is faithful.
* `pickle.dumps` / `pickle.loads` are opaque serializers, modelled as a pair
  of functions `dumps : α → β`, `loads : β → α`; theorems that need values to
  round-trip take the hypothesis `∀ v, loads (dumps v) = v` explicitly.
* A Python `dict` is an insertion-ordered association list with unique keys
  (`assocSet` replaces in place, `assocErase1` removes the first binding);
  a directory is an association list from filename to file bytes; a sqlite
  table is an association list of rows (`INSERT OR REPLACE` deletes the
  conflicting row and appends, `DELETE` removes every matching row).
* `hashlib.blake2b` is an abstract digest parameter `digest : data → salt →
  raw bytes`; `hexdigest()` and utf8 encoding of hex strings are concrete.
-/

set_option autoImplicit false

universe u v w

namespace Cachet

section Defs

variable {κ : Type u} {β : Type v} [DecidableEq κ]

/-- Lookup of the first binding for a key (Python `dict[k]` / first sqlite row). -/
def assocFind : List (κ × β) → κ → Option β
  | [], _ => none
  | (a, b) :: l, k => if k = a then some b else assocFind l k

/-- Insert-or-overwrite keeping the original position (Python `dict[k] = v`). -/
def assocSet : List (κ × β) → κ → β → List (κ × β)
  | [], k, v => [(k, v)]
  | (a, b) :: l, k, v => if k = a then (k, v) :: l else (a, b) :: assocSet l k v

/-- Remove the first binding of a key (`del dict[k]`, `os.remove`). -/
def assocErase1 : List (κ × β) → κ → List (κ × β)
  | [], _ => []
  | (a, b) :: l, k => if k = a then l else (a, b) :: assocErase1 l k

/-- Remove every binding of a key (sqlite `DELETE FROM kv WHERE (k = ?)`). -/
def assocEraseAll : List (κ × β) → κ → List (κ × β)
  | [], _ => []
  | (a, b) :: l, k => if k = a then assocEraseAll l k else (a, b) :: assocEraseAll l k

/-- Remove the first binding of a key, failing when it is absent: the shared
semantics of Python `del self.kv[key]` (KeyError) and `os.remove(filename)`
(FileNotFoundError). -/
def removeOrFail (l : List (κ × β)) (k : κ) : Option (List (κ × β)) :=
  match assocFind l k with
  | none => none
  | some _ => some (assocErase1 l k)

/-- Keys of an association list are pairwise distinct (Python dict invariant). -/
def KeysNodup (l : List (κ × β)) : Prop := (l.map Prod.fst).Nodup

end Defs

/-- Exceptions raised by the store lookup path: `CacheMissException` and
`ExpiredKeyException` from `cache.py` (lines 16-25).  `DontCacheException` is
raised by the wrapped function, not by the store, so it lives in `FnOutcome`. -/
inductive CacheException : Type
  | cacheMiss
  | expiredKey
  deriving DecidableEq, Repr

deriving instance DecidableEq for Except

section GenericDefs

variable {α : Type u} {σ : Type w}

/-- A concrete backend, as consumed by `GenericCache.__getitem__` and the
decorator: the `cache_class`-specific `_getitem` and `__setitem__`.  The `Int`
argument of `getitemRaw` is the current clock `self.now`; `setitem` receives
the stamped expiration `self.now + self.ttl` (`GenericCache.expiration`). -/
structure Backend (σ : Type w) (α : Type u) where
  getitemRaw : σ → String → Int → Except CacheException α
  setitem : σ → String → α → Int → σ

/-- Statistics-carrying cache state: the backend store plus the `_hits`,
`_misses`, `_expires` counters of `GenericCache` (class defaults are 0). -/
structure CacheState (σ : Type w) where
  store : σ
  hits : Nat := 0
  misses : Nat := 0
  expires : Nat := 0

/-- Fresh cache state over an initial store, with all counters at their
class-level default 0. -/
def CacheState.init (st : σ) : CacheState σ := { store := st }

/-- Sum of the three counters, for the accounting invariant. -/
def CacheState.statSum (cs : CacheState σ) : Nat := cs.hits + cs.misses + cs.expires

/-- Model of `GenericCache.__getitem__` (cache.py lines 53-63): delegate to the
backend `_getitem`, increment `_hits` on success, `_misses` on
`CacheMissException`, `_expires` on `ExpiredKeyException`, re-raising both. -/
def GenericCache.getitem (B : Backend σ α) (cs : CacheState σ) (key : String)
    (now : Int) : Except CacheException α × CacheState σ :=
  match B.getitemRaw cs.store key now with
  | .ok v => (.ok v, { cs with hits := cs.hits + 1 })
  | .error .cacheMiss => (.error .cacheMiss, { cs with misses := cs.misses + 1 })
  | .error .expiredKey => (.error .expiredKey, { cs with expires := cs.expires + 1 })

/-- Run a sequence of `__getitem__` lookups, threading the state (used for the
N-lookup accounting claim). -/
def GenericCache.runGets (B : Backend σ α) : CacheState σ → List (String × Int) → CacheState σ
  | cs, [] => cs
  | cs, (key, now) :: rest => GenericCache.runGets B (GenericCache.getitem B cs key now).2 rest

end GenericDefs

section BackendDefs

variable {α : Type u} {β : Type v}

/-! DictCache (cache.py lines 95-120): backing store is a dict from key to
`(pickle.dumps(value), expiration)`. -/

/-- Model of `DictCache._getitem` (lines 102-110): miss when the key is absent,
expired when `expiration < now`, otherwise unpickle and return the value. -/
def DictCache.getitem (loads : β → α) (kv : List (String × β × Int))
    (key : String) (now : Int) : Except CacheException α :=
  match assocFind kv key with
  | none => .error .cacheMiss
  | some (value, expiration) =>
    if expiration < now then .error .expiredKey else .ok (loads value)

/-- Model of `DictCache.__setitem__` (lines 119-120): store the pickled value
with the stamped expiration. -/
def DictCache.setitem (dumps : α → β) (kv : List (String × β × Int))
    (key : String) (value : α) (expiration : Int) : List (String × β × Int) :=
  assocSet kv key (dumps value, expiration)

/-- Model of `DictCache.__delitem__` (lines 99-100): `del self.kv[key]`,
raising `KeyError` (here `none`) when the key is absent. -/
def DictCache.delitem (kv : List (String × β × Int)) (key : String) :
    Option (List (String × β × Int)) :=
  removeOrFail kv key

/-- Model of `DictCache.__iter__` (lines 112-114): yield
`(key, pickle.loads(value))` for every stored pair, with no expiry filter. -/
def DictCache.iter (loads : β → α) (kv : List (String × β × Int)) :
    List (String × α) :=
  kv.map (fun p => (p.1, loads p.2.1))

/-- Model of `DictCache.__len__` (lines 116-117): the size of the dict. -/
def DictCache.len (kv : List (String × β × Int)) : Nat := kv.length

/-- The DictCache backend packaged for the generic layer and the decorator. -/
def DictCache.backend (dumps : α → β) (loads : β → α) :
    Backend (List (String × β × Int)) α :=
  ⟨DictCache.getitem loads, DictCache.setitem dumps⟩

/-! IOCache (cache.py lines 123-160): one gzip file per entry inside `tmpdir`,
holding `pickle.dumps((value, expiration))`; iteration and size glob the
directory for the `.cache.*.gz` naming pattern. -/

/-- Model of `IOCache.key_to_filename` (lines 125-130):
`'/'.join((tmpdir, '.'.join(('', 'cache', key, 'gz'))))`. -/
def IOCache.key_to_filename (tmpdir key : String) : String :=
  tmpdir ++ "/" ++ ("" ++ "." ++ "cache" ++ "." ++ key ++ "." ++ "gz")

/-- Boolean test that the first list starts the second (for the glob model). -/
def charsLeading : List Char → List Char → Bool
  | [], _ => true
  | _ :: _, [] => false
  | a :: p, b :: s => a == b && charsLeading p s

/-- Boolean test that the first list ends the second (for the glob model). -/
def charsTrailing (p s : List Char) : Bool := charsLeading p.reverse s.reverse

/-- Model of matching the glob pattern `'/'.join((tmpdir, '.cache.*.gz'))`
from `IOCache.__iter__`/`__len__` (lines 149, 155): the filename starts with
`tmpdir ++ "/.cache."`, ends with `".gz"`, and the two regions do not overlap
(`*` matches zero or more characters in between). -/
def globMatchCache (tmpdir fname : String) : Bool :=
  let p := (tmpdir ++ "/" ++ "." ++ "cache" ++ ".").data
  let s := ("." ++ "gz").data
  charsLeading p fname.data && charsTrailing s fname.data &&
    decide (p.length + s.length ≤ fname.data.length)

/-- Model of `IOCache._getitem` (lines 135-146): miss when the file does not
exist, otherwise unpickle the `(value, expiration)` pair from the file and
expire when `expiration < now`. -/
def IOCache.getitem (loadsPair : β → α × Int) (dir : List (String × β))
    (tmpdir key : String) (now : Int) : Except CacheException α :=
  match assocFind dir (IOCache.key_to_filename tmpdir key) with
  | none => .error .cacheMiss
  | some content =>
    let (value, expiration) := loadsPair content
    if expiration < now then .error .expiredKey else .ok value

/-- Model of `IOCache.__setitem__` (lines 157-160): write the pickled
`(value, expiration)` pair to the file derived from the key. -/
def IOCache.setitem (dumpsPair : α × Int → β) (dir : List (String × β))
    (tmpdir key : String) (value : α) (expiration : Int) : List (String × β) :=
  assocSet dir (IOCache.key_to_filename tmpdir key) (dumpsPair (value, expiration))

/-- Model of `IOCache.__delitem__` (lines 132-133): `os.remove(filename)` takes
a FILENAME (as yielded by `__iter__`), and raises (here `none`) when the file
is absent. -/
def IOCache.delitem (dir : List (String × β)) (filename : String) :
    Option (List (String × β)) :=
  removeOrFail dir filename

/-- The glob of `IOCache.__iter__`/`__len__`: all directory entries whose name
matches `tmpdir ++ "/.cache.*.gz"`. -/
def IOCache.glob (dir : List (String × β)) (tmpdir : String) : List (String × β) :=
  dir.filter (fun p => globMatchCache tmpdir p.1)

/-- Model of `IOCache.__iter__` (lines 148-152): yield `(filename, value)` —
the FILENAME, not the key — for every globbed file, with no expiry filter. -/
def IOCache.iter (loadsPair : β → α × Int) (dir : List (String × β))
    (tmpdir : String) : List (String × α) :=
  (IOCache.glob dir tmpdir).map (fun p => (p.1, (loadsPair p.2).1))

/-- Model of `IOCache.__len__` (lines 154-155): the number of globbed files. -/
def IOCache.len (dir : List (String × β)) (tmpdir : String) : Nat :=
  (IOCache.glob dir tmpdir).length

/-- The IOCache backend packaged for the generic layer and the decorator. -/
def IOCache.backend (dumpsPair : α × Int → β) (loadsPair : β → α × Int)
    (tmpdir : String) : Backend (List (String × β)) α :=
  ⟨fun dir key now => IOCache.getitem loadsPair dir tmpdir key now,
   fun dir key value expiration => IOCache.setitem dumpsPair dir tmpdir key value expiration⟩

/-! SqliteCache (cache.py lines 163-210): one table
`kv (k TEXT PRIMARY KEY, v BLOB, e FLOAT)`; `INSERT OR REPLACE` removes the
conflicting row and inserts the new one, `DELETE` removes every matching row. -/

/-- Model of `SqliteCache._getitem` (lines 191-198): `SELECT v, e FROM kv WHERE
(k = ?)`; `StopIteration` on an empty result is a miss, `expiration < now` is
expired, otherwise unpickle and return the value. -/
def SqliteCache.getitem (loads : β → α) (rows : List (String × β × Int))
    (key : String) (now : Int) : Except CacheException α :=
  match assocFind rows key with
  | none => .error .cacheMiss
  | some (value, expiration) =>
    if expiration < now then .error .expiredKey else .ok (loads value)

/-- Model of `SqliteCache.__setitem__` (lines 208-210): `INSERT OR REPLACE INTO
kv` — the conflicting primary-key row is deleted and the new row inserted. -/
def SqliteCache.setitem (dumps : α → β) (rows : List (String × β × Int))
    (key : String) (value : α) (expiration : Int) : List (String × β × Int) :=
  assocEraseAll rows key ++ [(key, (dumps value, expiration))]

/-- Model of `SqliteCache.__delitem__` (lines 187-189): `DELETE FROM kv WHERE
(k = ?)`, a no-op when no row matches. -/
def SqliteCache.delitem (rows : List (String × β × Int)) (key : String) :
    List (String × β × Int) :=
  assocEraseAll rows key

/-- Model of `SqliteCache.__iter__` (lines 200-202): `SELECT k, v FROM kv` with
no WHERE clause — every row, unpickled, with no expiry filter. -/
def SqliteCache.iter (loads : β → α) (rows : List (String × β × Int)) :
    List (String × α) :=
  rows.map (fun p => (p.1, loads p.2.1))

/-- Model of `SqliteCache.__len__` (lines 204-206): `SELECT COUNT(*) FROM kv`. -/
def SqliteCache.len (rows : List (String × β × Int)) : Nat := rows.length

/-- The SqliteCache backend packaged for the generic layer and the decorator. -/
def SqliteCache.backend (dumps : α → β) (loads : β → α) :
    Backend (List (String × β × Int)) α :=
  ⟨SqliteCache.getitem loads, SqliteCache.setitem dumps⟩

end BackendDefs

section WrapperDefs

variable {α : Type u} {ε : Type v} {A : Type u} {σ : Type w}

/-- Outcome of invoking the wrapped function `f` on given arguments: a normal
return value, a `DontCacheException` with its message, or any other exception. -/
inductive FnOutcome (ε : Type v) (α : Type u) : Type (max u v)
  | value : α → FnOutcome ε α
  | dontCache : String → FnOutcome ε α
  | raise : ε → FnOutcome ε α

/-- Everything one wrapped call produces: the result (`.error` when an
exception other than `DontCacheException` propagates, `.ok none` for the
`None` sentinel), the new cache state, whether the wrapped `f` was invoked,
and what `print(e)` emitted, if anything. -/
structure CallResult (σ : Type w) (ε : Type v) (α : Type u) where
  result : Except ε (Option α)
  state : CacheState σ
  invoked : Bool
  printed : Option String

/-- Model of the `returned` wrapper (cache.py lines 217-230), one call at time
`now`: derive the key with `args_to_key`, try `the_cache[key]`; on a hit return
the stored value; on miss/expiry invoke `f`, and either store the result and
return it, or print the `DontCacheException` and return `None`, or let any
other exception propagate (storing nothing). -/
def returned (B : Backend σ α) (f : A → FnOutcome ε α) (argsToKey : A → String)
    (ttl : Int) (cs : CacheState σ) (args : A) (now : Int) : CallResult σ ε α :=
  let key := argsToKey args
  match GenericCache.getitem B cs key now with
  | (.ok v, cs') => ⟨.ok (some v), cs', false, none⟩
  | (.error _, cs') =>
    match f args with
    | .value v =>
      ⟨.ok (some v), { cs' with store := B.setitem cs'.store key v (now + ttl) }, true, none⟩
    | .dontCache msg => ⟨.ok none, cs', true, some msg⟩
    | .raise e => ⟨.error e, cs', true, none⟩

/-- Run a sequence of wrapped calls, threading the cache state and collecting
each call's result plus the total number of times `f` was actually invoked. -/
def runCalls (B : Backend σ α) (f : A → FnOutcome ε α) (argsToKey : A → String)
    (ttl : Int) : CacheState σ → List (A × Int) → List (Except ε (Option α)) × CacheState σ × Nat
  | cs, [] => ([], cs, 0)
  | cs, (args, t) :: rest =>
    let r := returned B f argsToKey ttl cs args t
    let rest' := runCalls B f argsToKey ttl r.state rest
    (r.result :: rest'.1, rest'.2.1, (if r.invoked then 1 else 0) + rest'.2.2)

/-- Delete a snapshot of keys one after the other, failing if any single
deletion fails (the loop body of `GenericCache.bust`). -/
def bustList (delitem : σ → String → Option σ) : σ → List String → Option σ
  | st, [] => some st
  | st, k :: ks =>
    match delitem st k with
    | none => none
    | some st' => bustList delitem st' ks

/-- Model of `GenericCache.bust` (cache.py lines 73-75): materialize
`list(self)` first, then `del self[k]` for each yielded key. -/
def GenericCache.bust (iterKeys : σ → List String) (delitem : σ → String → Option σ)
    (st : σ) : Option σ :=
  bustList delitem st (iterKeys st)

end WrapperDefs

section BustDefs

variable {α : Type u} {β : Type v}

/-- Model of `bust()` on a DictCache store. -/
def DictCache.bust (loads : β → α) (kv : List (String × β × Int)) :
    Option (List (String × β × Int)) :=
  GenericCache.bust (fun st => (DictCache.iter loads st).map Prod.fst) DictCache.delitem kv

/-- Model of `bust()` on an IOCache store: the snapshot yields filenames,
which is what `__delitem__` (`os.remove`) consumes. -/
def IOCache.bust (loadsPair : β → α × Int) (tmpdir : String)
    (dir : List (String × β)) : Option (List (String × β)) :=
  GenericCache.bust (fun st => (IOCache.iter loadsPair st tmpdir).map Prod.fst)
    IOCache.delitem dir

/-- Model of `bust()` on a SqliteCache store: the SQL `DELETE` never fails,
so the per-key deletion is total. -/
def SqliteCache.bust (loads : β → α) (rows : List (String × β × Int)) :
    Option (List (String × β × Int)) :=
  GenericCache.bust (fun st => (SqliteCache.iter loads st).map Prod.fst)
    (fun st k => some (SqliteCache.delitem st k)) rows

end BustDefs

/-! Key derivation (cache.py lines 33-41 and 65-71).  `hashlib.blake2b` with
`digest_size=8` is modelled as an abstract `digest : data → salt → raw digest
bytes` (a list of byte values); `hexdigest()` and the utf8 encoding of the
resulting (ASCII) hex string are modelled concretely.  `pickle.dumps` of the
argument tuple is an opaque byte-list parameter. -/

/-- Lowercase hexadecimal digit for a value below 16 (`'0'` is 48, `'a'` is 97). -/
def hexDigitChar (n : Nat) : Char :=
  if n < 10 then Char.ofNat (48 + n) else Char.ofNat (87 + n)

/-- Model of `.hexdigest()`: each byte becomes two lowercase hex characters,
high nibble first. -/
def bytesToHexString (bs : List Nat) : String :=
  ⟨bs.foldr (fun b acc => hexDigitChar (b / 16) :: hexDigitChar (b % 16) :: acc) []⟩

/-- Model of `bytes(s, 'utf8')` for ASCII strings such as hex digests: the code
point of each character. -/
def utf8Encode (s : String) : List Nat := s.data.map Char.toNat

/-- Model of `GenericCache.args_to_key` (cache.py lines 65-71):
`hashlib.blake2b(pickle.dumps((args, kwargs)), digest_size=8, salt=self._salt).hexdigest()`,
with the pickled argument tuple and the digest function abstract. -/
def GenericCache.args_to_key (digest : List Nat → List Nat → List Nat)
    (salt : List Nat) (pickled : List Nat) : String :=
  bytesToHexString (digest pickled salt)

/-- Model of the salt computation in `GenericCache.__init__` (cache.py lines
33-41): `args_to_key(module=..., qualname=...)` runs with the class-level
`_salt = b''`, and `bytes(_salt, 'utf8')` — the utf8 bytes of the returned hex
STRING — becomes the store's salt.  `pickledIdentity` stands for
`pickle.dumps(((), dict(module=..., qualname=...)))`. -/
def GenericCache.init_salt (digest : List Nat → List Nat → List Nat)
    (pickledIdentity : List Nat) : List Nat :=
  utf8Encode (GenericCache.args_to_key digest [] pickledIdentity)

/-- Modelled from the spec: the claim's reading of the salt derivation, namely
hashing the identity pair through the same digest function unsalted and
"taking the raw digest bytes as the salt". -/
def spec_salt_raw_digest (digest : List Nat → List Nat → List Nat)
    (pickledIdentity : List Nat) : List Nat :=
  digest pickledIdentity []

/-- Modelled from the spec, amended: the salt is the utf8 encoding of the
lowercase hex digest string of the unsalted hash of the identity pair. -/
def spec_salt_hex_utf8 (digest : List Nat → List Nat → List Nat)
    (pickledIdentity : List Nat) : List Nat :=
  utf8Encode (bytesToHexString (digest pickledIdentity []))

/-- A stand-in digest function with blake2b's `digest_size=8` output shape:
eight raw bytes, here all zero, for concrete counterexamples and witnesses. -/
def constDigest8 : List Nat → List Nat → List Nat :=
  fun _ _ => [0, 0, 0, 0, 0, 0, 0, 0]

/-- A concrete DictCache backend over `Nat` values with identity serialization,
for witnesses. -/
def natDictBackend : Backend (List (String × Nat × Int)) Nat :=
  DictCache.backend id id

/-! Association-list lemmas. -/

section AssocLemmas

variable {κ : Type u} {β : Type v} [DecidableEq κ]

@[simp] theorem assocFind_nil (k : κ) : assocFind ([] : List (κ × β)) k = none := rfl

theorem assocFind_cons (a : κ) (b : β) (l : List (κ × β)) (k : κ) :
    assocFind ((a, b) :: l) k = if k = a then some b else assocFind l k := rfl

theorem assocFind_assocSet_self (l : List (κ × β)) (k : κ) (v : β) :
    assocFind (assocSet l k v) k = some v := by
  induction l with
  | nil => simp [assocSet, assocFind]
  | cons p l ih =>
    obtain ⟨a, b⟩ := p
    by_cases h : k = a <;> simp [assocSet, assocFind, h, ih]

theorem mem_assocSet_self (l : List (κ × β)) (k : κ) (v : β) :
    (k, v) ∈ assocSet l k v := by
  induction l with
  | nil => simp [assocSet]
  | cons p l ih =>
    obtain ⟨a, b⟩ := p
    by_cases h : k = a <;> simp [assocSet, h, ih]

theorem assocErase1_cons_self (a : κ) (b : β) (l : List (κ × β)) :
    assocErase1 ((a, b) :: l) a = l := by
  simp [assocErase1]

theorem assocErase1_cons_ne (a : κ) (b : β) (l : List (κ × β)) (k : κ) (h : k ≠ a) :
    assocErase1 ((a, b) :: l) k = (a, b) :: assocErase1 l k := by
  simp [assocErase1, h]

theorem not_mem_keys_assocErase1 (l : List (κ × β)) (k : κ)
    (hnd : KeysNodup l) : k ∉ (assocErase1 l k).map Prod.fst := by
  induction l with
  | nil => simp [assocErase1]
  | cons p l ih =>
    obtain ⟨a, b⟩ := p
    rw [KeysNodup, List.map_cons, List.nodup_cons] at hnd
    by_cases hk : k = a
    · simp only [assocErase1, if_pos hk]
      subst hk
      exact hnd.1
    · simp only [assocErase1, if_neg hk, List.map_cons, List.mem_cons]
      intro hmem
      rcases hmem with h | h
      · exact hk h
      · exact ih hnd.2 h

theorem assocFind_assocEraseAll_self (l : List (κ × β)) (k : κ) :
    assocFind (assocEraseAll l k) k = none := by
  induction l with
  | nil => rfl
  | cons p l ih =>
    obtain ⟨a, b⟩ := p
    by_cases h : k = a
    · subst h
      simpa [assocEraseAll] using ih
    · simp [assocEraseAll, assocFind, h, ih]

theorem not_mem_keys_assocEraseAll (l : List (κ × β)) (k : κ) :
    k ∉ (assocEraseAll l k).map Prod.fst := by
  induction l with
  | nil => simp [assocEraseAll]
  | cons p l ih =>
    obtain ⟨a, b⟩ := p
    by_cases h : k = a
    · subst h
      simpa [assocEraseAll] using ih
    · simp only [assocEraseAll, if_neg h, List.map_cons, List.mem_cons]
      intro hmem
      rcases hmem with h' | h'
      · exact h h'
      · exact ih h'

theorem mem_keys_assocEraseAll (l : List (κ × β)) (k x : κ)
    (h : x ∈ (assocEraseAll l k).map Prod.fst) : x ∈ l.map Prod.fst := by
  induction l with
  | nil => simp [assocEraseAll] at h
  | cons p l ih =>
    obtain ⟨a, b⟩ := p
    by_cases hk : k = a
    · subst hk
      simp only [assocEraseAll, if_pos rfl] at h
      simp [ih h]
    · simp only [assocEraseAll, if_neg hk, List.map_cons, List.mem_cons] at h
      rcases h with h | h
      · simp [h]
      · simp [ih h]

theorem assocFind_append_of_none (l l' : List (κ × β)) (k : κ)
    (h : assocFind l k = none) : assocFind (l ++ l') k = assocFind l' k := by
  induction l with
  | nil => simp
  | cons p l ih =>
    obtain ⟨a, b⟩ := p
    by_cases hk : k = a
    · simp [assocFind, hk] at h
    · simp only [assocFind, if_neg hk] at h
      simpa [assocFind, hk] using ih h

theorem removeOrFail_cons_self (a : κ) (b : β) (l : List (κ × β)) :
    removeOrFail ((a, b) :: l) a = some l := by
  simp [removeOrFail, assocFind_cons, assocErase1_cons_self]

end AssocLemmas

/-! Hex-digest lemmas for the key-derivation model. -/

theorem bytesToHexString_data (bs : List Nat) :
    (bytesToHexString bs).data
      = bs.foldr (fun b acc => hexDigitChar (b / 16) :: hexDigitChar (b % 16) :: acc) [] := rfl

theorem bytesToHexString_length (bs : List Nat) :
    (bytesToHexString bs).data.length = 2 * bs.length := by
  rw [bytesToHexString_data]
  induction bs with
  | nil => rfl
  | cons b bs ih =>
    simp only [List.foldr_cons, List.length_cons, ih]
    omega

theorem hexDigitChar_mem_hex (n : Nat) (h : n < 16) :
    hexDigitChar n ∈ ("0123456789abcdef").data := by
  revert h
  revert n
  decide

theorem bytesToHexString_chars (bs : List Nat) (hb : ∀ b ∈ bs, b < 256) :
    ∀ c ∈ (bytesToHexString bs).data, c ∈ ("0123456789abcdef").data := by
  rw [bytesToHexString_data]
  induction bs with
  | nil => simp
  | cons b bs ih =>
    intro c hc
    simp only [List.foldr_cons, List.mem_cons] at hc
    have hblt : b < 256 := hb b (by simp)
    rcases hc with hc | hc | hc
    · subst hc
      exact hexDigitChar_mem_hex _ (Nat.div_lt_of_lt_mul (by omega))
    · subst hc
      exact hexDigitChar_mem_hex _ (Nat.mod_lt _ (by omega))
    · exact ih (fun x hx => hb x (by simp [hx])) c hc

/-! Glob-pattern lemmas for the IOCache model. -/

theorem charsLeading_append (p t : List Char) : charsLeading p (p ++ t) = true := by
  induction p with
  | nil => rfl
  | cons a p ih => simp [charsLeading, ih]

theorem charsTrailing_append (s t : List Char) : charsTrailing s (t ++ s) = true := by
  unfold charsTrailing
  rw [List.reverse_append]
  exact charsLeading_append _ _

theorem key_to_filename_data (tmpdir key : String) :
    (IOCache.key_to_filename tmpdir key).data
      = (tmpdir ++ "/" ++ "." ++ "cache" ++ ".").data
        ++ (key.data ++ ("." ++ "gz").data) := by
  simp [IOCache.key_to_filename, String.data_append, List.append_assoc]

theorem globMatchCache_key_to_filename (tmpdir key : String) :
    globMatchCache tmpdir (IOCache.key_to_filename tmpdir key) = true := by
  unfold globMatchCache
  rw [key_to_filename_data]
  simp only [Bool.and_eq_true, decide_eq_true_eq]
  refine ⟨⟨charsLeading_append _ _, ?_⟩, ?_⟩
  · rw [show (tmpdir ++ "/" ++ "." ++ "cache" ++ ".").data ++ (key.data ++ ("." ++ "gz").data)
        = ((tmpdir ++ "/" ++ "." ++ "cache" ++ ".").data ++ key.data) ++ ("." ++ "gz").data
      by simp [List.append_assoc]]
    exact charsTrailing_append _ _
  · simp only [List.length_append]
    omega

/-! Statistics lemmas for `GenericCache.__getitem__`. -/

section StatsLemmas

variable {α : Type u} {σ : Type w}

theorem getitem_statSum (B : Backend σ α) (cs : CacheState σ) (key : String) (now : Int) :
    (GenericCache.getitem B cs key now).2.statSum = cs.statSum + 1 := by
  unfold GenericCache.getitem
  rcases h : B.getitemRaw cs.store key now with e | v
  · cases e <;> simp [h, CacheState.statSum] <;> omega
  · simp [h, CacheState.statSum]
    omega

theorem runGets_statSum (B : Backend σ α) (cs : CacheState σ) (calls : List (String × Int)) :
    (GenericCache.runGets B cs calls).statSum = cs.statSum + calls.length := by
  induction calls generalizing cs with
  | nil => simp [GenericCache.runGets]
  | cons c rest ih =>
    obtain ⟨key, now⟩ := c
    rw [GenericCache.runGets, ih, getitem_statSum]
    simp
    omega

end StatsLemmas

/-! Claim theorems. -/

/-- C2: for every backend, each lookup through `GenericCache.__getitem__`
increments exactly one of the counters hits/misses/expires — hits on success,
misses on a `CacheMissException`, expires on an `ExpiredKeyException` — and
after any sequence of N lookups from a fresh store,
`hits + misses + expires = N`. -/
theorem c2_stats_accounting {σ : Type w} {α : Type u} (B : Backend σ α)
    (cs : CacheState σ) (key : String) (now : Int) :
    ((GenericCache.getitem B cs key now).2.statSum = cs.statSum + 1)
    ∧ (∀ v, B.getitemRaw cs.store key now = .ok v →
        (GenericCache.getitem B cs key now).2.hits = cs.hits + 1
        ∧ (GenericCache.getitem B cs key now).2.misses = cs.misses
        ∧ (GenericCache.getitem B cs key now).2.expires = cs.expires)
    ∧ (B.getitemRaw cs.store key now = .error .cacheMiss →
        (GenericCache.getitem B cs key now).2.misses = cs.misses + 1
        ∧ (GenericCache.getitem B cs key now).2.hits = cs.hits
        ∧ (GenericCache.getitem B cs key now).2.expires = cs.expires)
    ∧ (B.getitemRaw cs.store key now = .error .expiredKey →
        (GenericCache.getitem B cs key now).2.expires = cs.expires + 1
        ∧ (GenericCache.getitem B cs key now).2.hits = cs.hits
        ∧ (GenericCache.getitem B cs key now).2.misses = cs.misses)
    ∧ (∀ (st : σ) (calls : List (String × Int)),
        (GenericCache.runGets B (CacheState.init st) calls).statSum = calls.length) := by
  refine ⟨getitem_statSum B cs key now, ?_, ?_, ?_, ?_⟩
  · intro v hv
    simp [GenericCache.getitem, hv]
  · intro hm
    simp [GenericCache.getitem, hm]
  · intro he
    simp [GenericCache.getitem, he]
  · intro st calls
    rw [runGets_statSum]
    simp [CacheState.init, CacheState.statSum]

/-- Witness for C2 at the concrete Nat DictCache backend: a fresh-store lookup
is a miss that sets `misses` to 1 and leaves the other counters at 0, and a
two-lookup sequence has counter sum 2. -/
theorem c2_stats_accounting_witness :
    natDictBackend.getitemRaw (CacheState.init ([] : List (String × Nat × Int))).store "k" 0
        = .error .cacheMiss
    ∧ (GenericCache.getitem natDictBackend (CacheState.init []) "k" 0).2.misses
        = (CacheState.init ([] : List (String × Nat × Int))).misses + 1
    ∧ (GenericCache.runGets natDictBackend (CacheState.init [])
        [("k", 0), ("k", 1)]).statSum = 2 := by
  refine ⟨rfl, ?_, ?_⟩
  · exact ((c2_stats_accounting natDictBackend (CacheState.init []) "k" 0).2.2.1 rfl).1
  · exact (c2_stats_accounting natDictBackend (CacheState.init []) "k" 0).2.2.2.2
      [] [("k", 0), ("k", 1)]

/-- C3 counterexample: in every backend expiry is the STRICT comparison
`expiration < now` (cache.py lines 107, 143, 194), so an entry whose stamped
expiration equals the clock — `expiration <= now` in the claim's words — is
returned as a hit, not failed with `ExpiredKey`: here an entry stamped 5 is
read at time 5 and returns `.ok 5`. -/
theorem c3_boundary_counterexample :
    (5 : Int) ≤ 5
    ∧ DictCache.getitem (id : Nat → Nat) [("k", ((5 : Nat), (5 : Int)))] "k" 5 = .ok 5
    ∧ DictCache.getitem (id : Nat → Nat) [("k", ((5 : Nat), (5 : Int)))] "k" 5
        ≠ .error .expiredKey := by
  refine ⟨by decide, by decide, by decide⟩

/-- C3 amended: for every backend, `get(key)` fails with `CacheMiss` when no
entry physically exists, fails with `ExpiredKey` when an entry exists with
`expiration < now` (strictly), and an entry is returned as a hit exactly while
`expiration >= now`. -/
theorem c3_amended_get_taxonomy {α : Type u} {β : Type v} (loads : β → α)
    (loadsPair : β → α × Int) (kv rows : List (String × β × Int))
    (dir : List (String × β)) (tmpdir key : String) (now : Int) :
    ((assocFind kv key = none → DictCache.getitem loads kv key now = .error .cacheMiss)
      ∧ (∀ v e, assocFind kv key = some (v, e) → e < now →
          DictCache.getitem loads kv key now = .error .expiredKey)
      ∧ (∀ v e, assocFind kv key = some (v, e) → now ≤ e →
          DictCache.getitem loads kv key now = .ok (loads v)))
    ∧ ((assocFind rows key = none → SqliteCache.getitem loads rows key now = .error .cacheMiss)
      ∧ (∀ v e, assocFind rows key = some (v, e) → e < now →
          SqliteCache.getitem loads rows key now = .error .expiredKey)
      ∧ (∀ v e, assocFind rows key = some (v, e) → now ≤ e →
          SqliteCache.getitem loads rows key now = .ok (loads v)))
    ∧ ((assocFind dir (IOCache.key_to_filename tmpdir key) = none →
          IOCache.getitem loadsPair dir tmpdir key now = .error .cacheMiss)
      ∧ (∀ content, assocFind dir (IOCache.key_to_filename tmpdir key) = some content →
          (loadsPair content).2 < now →
          IOCache.getitem loadsPair dir tmpdir key now = .error .expiredKey)
      ∧ (∀ content, assocFind dir (IOCache.key_to_filename tmpdir key) = some content →
          now ≤ (loadsPair content).2 →
          IOCache.getitem loadsPair dir tmpdir key now = .ok (loadsPair content).1)) := by
  refine ⟨⟨?_, ?_, ?_⟩, ⟨?_, ?_, ?_⟩, ⟨?_, ?_, ?_⟩⟩
  · intro h
    simp [DictCache.getitem, h]
  · intro v e h he
    simp [DictCache.getitem, h, he]
  · intro v e h he
    simp [DictCache.getitem, h, not_lt.mpr he]
  · intro h
    simp [SqliteCache.getitem, h]
  · intro v e h he
    simp [SqliteCache.getitem, h, he]
  · intro v e h he
    simp [SqliteCache.getitem, h, not_lt.mpr he]
  · intro h
    simp [IOCache.getitem, h]
  · intro content h he
    simp [IOCache.getitem, h, he]
  · intro content h he
    simp [IOCache.getitem, h, not_lt.mpr he]

/-- Witness for the amended C3 at concrete stores: a missing key misses, an
entry stamped 4 read at 5 expires, an entry stamped 5 read at 5 hits. -/
theorem c3_amended_get_taxonomy_witness :
    (assocFind ([] : List (String × Nat × Int)) "k" = none
      ∧ DictCache.getitem (id : Nat → Nat) [] "k" 5 = .error .cacheMiss)
    ∧ (assocFind [("k", ((7 : Nat), (4 : Int)))] "k" = some (7, 4) ∧ (4 : Int) < 5
      ∧ DictCache.getitem (id : Nat → Nat) [("k", ((7 : Nat), (4 : Int)))] "k" 5
          = .error .expiredKey)
    ∧ (assocFind [("k", ((7 : Nat), (5 : Int)))] "k" = some (7, 5) ∧ (5 : Int) ≤ 5
      ∧ DictCache.getitem (id : Nat → Nat) [("k", ((7 : Nat), (5 : Int)))] "k" 5 = .ok 7) := by
  refine ⟨⟨by decide, ?_⟩, ⟨by decide, by decide, ?_⟩, ⟨by decide, by decide, ?_⟩⟩
  · exact (c3_amended_get_taxonomy (id : Nat → Nat) (fun b => (b, 0))
      [] [] [] "" "k" 5).1.1 rfl
  · exact (c3_amended_get_taxonomy (id : Nat → Nat) (fun b => (b, 0))
      [("k", (7, 4))] [] [] "" "k" 5).1.2.1 7 4 rfl (by decide)
  · exact (c3_amended_get_taxonomy (id : Nat → Nat) (fun b => (b, 0))
      [("k", (7, 5))] [] [] "" "k" 5).1.2.2 7 5 rfl (by decide)

/-- C6: when the lookup fails (miss or expiry) and the wrapped function raises
`DontCacheException`, the wrapper stores nothing (the backend store is
unchanged), does not propagate the exception (the call returns normally),
prints the exception, and returns the `None` sentinel. -/
theorem c6_dont_cache_optout {σ : Type w} {α : Type u} {ε : Type v} {A : Type u}
    (B : Backend σ α) (f : A → FnOutcome ε α) (argsToKey : A → String) (ttl : Int)
    (cs : CacheState σ) (args : A) (now : Int) (msg : String) (err : CacheException)
    (hmiss : B.getitemRaw cs.store (argsToKey args) now = .error err)
    (hf : f args = .dontCache msg) :
    (returned B f argsToKey ttl cs args now).result = .ok none
    ∧ (returned B f argsToKey ttl cs args now).state.store = cs.store
    ∧ (returned B f argsToKey ttl cs args now).printed = some msg := by
  cases err <;> simp [returned, GenericCache.getitem, hmiss, hf]

/-- Witness for C6: a concrete opted-out call on a fresh Nat DictCache store
returns `None`, stores nothing, and prints the message. -/
theorem c6_dont_cache_optout_witness :
    natDictBackend.getitemRaw (CacheState.init ([] : List (String × Nat × Int))).store "k" 0
        = .error .cacheMiss
    ∧ (returned natDictBackend
        (fun _ : Unit => (FnOutcome.dontCache "skip" : FnOutcome Unit Nat))
        (fun _ => "k") 10 (CacheState.init []) () 0).result = .ok none
    ∧ (returned natDictBackend
        (fun _ : Unit => (FnOutcome.dontCache "skip" : FnOutcome Unit Nat))
        (fun _ => "k") 10 (CacheState.init []) () 0).state.store = []
    ∧ (returned natDictBackend
        (fun _ : Unit => (FnOutcome.dontCache "skip" : FnOutcome Unit Nat))
        (fun _ => "k") 10 (CacheState.init []) () 0).printed = some "skip" := by
  have h := c6_dont_cache_optout natDictBackend
    (fun _ : Unit => (FnOutcome.dontCache "skip" : FnOutcome Unit Nat)) (fun _ => "k") 10
    (CacheState.init []) () 0 "skip" .cacheMiss rfl rfl
  exact ⟨rfl, h.1, h.2.1, h.2.2⟩

/-- C7: when the lookup fails (miss or expiry) and the wrapped function raises
anything other than `DontCacheException`, that exception propagates unmodified
to the caller and the backend store is unchanged — nothing is stored. -/
theorem c7_other_failure_propagates {σ : Type w} {α : Type u} {ε : Type v} {A : Type u}
    (B : Backend σ α) (f : A → FnOutcome ε α) (argsToKey : A → String) (ttl : Int)
    (cs : CacheState σ) (args : A) (now : Int) (e : ε) (err : CacheException)
    (hmiss : B.getitemRaw cs.store (argsToKey args) now = .error err)
    (hf : f args = .raise e) :
    (returned B f argsToKey ttl cs args now).result = .error e
    ∧ (returned B f argsToKey ttl cs args now).state.store = cs.store := by
  cases err <;> simp [returned, GenericCache.getitem, hmiss, hf]

/-- Witness for C7: a concrete failing call on a fresh Nat DictCache store
propagates the exception value and leaves the store empty. -/
theorem c7_other_failure_propagates_witness :
    natDictBackend.getitemRaw (CacheState.init ([] : List (String × Nat × Int))).store "k" 0
        = .error .cacheMiss
    ∧ (returned natDictBackend
        (fun _ : Unit => (FnOutcome.raise "boom" : FnOutcome String Nat))
        (fun _ => "k") 10 (CacheState.init []) () 0).result = .error "boom"
    ∧ (returned natDictBackend
        (fun _ : Unit => (FnOutcome.raise "boom" : FnOutcome String Nat))
        (fun _ => "k") 10 (CacheState.init []) () 0).state.store = [] := by
  have h := c7_other_failure_propagates natDictBackend
    (fun _ : Unit => (FnOutcome.raise "boom" : FnOutcome String Nat)) (fun _ => "k") 10
    (CacheState.init []) () 0 "boom" .cacheMiss rfl rfl
  exact ⟨rfl, h.1, h.2⟩

/-- C8 counterexample: the store's salt is NOT the raw digest bytes of the
unsalted identity hash — `__init__` converts the hexdigest STRING back to
bytes via `bytes(_salt, 'utf8')`.  For a digest-size-8 function returning
eight zero bytes, the code's salt is the sixteen utf8 bytes of
`"0000000000000000"` (sixteen times 48), not the eight raw zero bytes. -/
theorem c8_salt_counterexample :
    GenericCache.init_salt constDigest8 [] ≠ spec_salt_raw_digest constDigest8 [] := by
  decide

/-- C8 amended: the salt is computed once at construction by hashing the
identity pair through the same digest function unsalted and taking the UTF8
BYTES OF THE LOWERCASE HEX DIGEST STRING as the salt; and every argument key
is the digest of the serialized argument tuple salted with the store's salt,
rendered as a lowercase hex string of exactly 16 hex characters (for blake2b
with `digest_size=8`: eight bytes, each below 256). -/
theorem c8_amended_salt_derivation (digest : List Nat → List Nat → List Nat)
    (pickledIdentity : List Nat)
    (hlen : ∀ d s, (digest d s).length = 8)
    (hbyte : ∀ d s, ∀ b ∈ digest d s, b < 256) :
    GenericCache.init_salt digest pickledIdentity = spec_salt_hex_utf8 digest pickledIdentity
    ∧ ∀ salt data,
        GenericCache.args_to_key digest salt data = bytesToHexString (digest data salt)
        ∧ (GenericCache.args_to_key digest salt data).data.length = 16
        ∧ ∀ c ∈ (GenericCache.args_to_key digest salt data).data,
            c ∈ ("0123456789abcdef").data := by
  refine ⟨rfl, fun salt data => ⟨rfl, ?_, ?_⟩⟩
  · rw [GenericCache.args_to_key, bytesToHexString_length, hlen]
  · exact bytesToHexString_chars _ (hbyte data salt)

/-- Witness for the amended C8 at the concrete digest-size-8 stand-in: its
outputs have length 8 with bytes below 256, the derived salt is the utf8 hex
encoding, and a concrete key is the 16-character lowercase hex string
`"0000000000000000"`. -/
theorem c8_amended_salt_derivation_witness :
    (∀ d s, (constDigest8 d s).length = 8)
    ∧ (∀ d s, ∀ b ∈ constDigest8 d s, b < 256)
    ∧ GenericCache.init_salt constDigest8 [] = spec_salt_hex_utf8 constDigest8 []
    ∧ (GenericCache.args_to_key constDigest8 [] [] ).data.length = 16 := by
  have h1 : ∀ d s, (constDigest8 d s).length = 8 := fun d s => rfl
  have h2 : ∀ d s, ∀ b ∈ constDigest8 d s, b < 256 := by
    intro d s b hb
    simp [constDigest8] at hb
    omega
  have h := c8_amended_salt_derivation constDigest8 [] h1 h2
  exact ⟨h1, h2, h.1, (h.2 [] []).2.1⟩

/-- C10: in all three backends, `iterate()` yields and `size()` counts every
physically present entry regardless of its expiration: the iterated list has
exactly `size()` elements, and every stored entry — whatever its stamped
expiration `e` — contributes its pair to the iteration.  (For IOCache,
"physically present" means a file matching the `.cache.*.gz` glob; its
iteration key is the filename.) -/
theorem c10_iterate_includes_expired {α : Type u} {β : Type v} (loads : β → α)
    (loadsPair : β → α × Int) (kv rows : List (String × β × Int))
    (dir : List (String × β)) (tmpdir : String) :
    ((DictCache.iter loads kv).length = DictCache.len kv
      ∧ ∀ key v e, (key, (v, e)) ∈ kv → (key, loads v) ∈ DictCache.iter loads kv)
    ∧ ((SqliteCache.iter loads rows).length = SqliteCache.len rows
      ∧ ∀ key v e, (key, (v, e)) ∈ rows → (key, loads v) ∈ SqliteCache.iter loads rows)
    ∧ ((IOCache.iter loadsPair dir tmpdir).length = IOCache.len dir tmpdir
      ∧ ∀ fname content, (fname, content) ∈ dir → globMatchCache tmpdir fname = true →
          (fname, (loadsPair content).1) ∈ IOCache.iter loadsPair dir tmpdir) := by
  refine ⟨⟨?_, ?_⟩, ⟨?_, ?_⟩, ⟨?_, ?_⟩⟩
  · simp [DictCache.iter, DictCache.len]
  · intro key v e h
    exact List.mem_map.mpr ⟨(key, (v, e)), h, rfl⟩
  · simp [SqliteCache.iter, SqliteCache.len]
  · intro key v e h
    exact List.mem_map.mpr ⟨(key, (v, e)), h, rfl⟩
  · simp [IOCache.iter, IOCache.len]
  · intro fname content h hglob
    exact List.mem_map.mpr ⟨(fname, content), List.mem_filter.mpr ⟨h, hglob⟩, rfl⟩

/-- Witness for C10 at concrete single-entry stores whose entries are ALREADY
expired (stamped 0, so any later read would expire them): iteration still
yields them and sizes still count them, in all three backends. -/
theorem c10_iterate_includes_expired_witness :
    (("k", ((7 : Nat), (0 : Int))) ∈ [("k", ((7 : Nat), (0 : Int)))]
      ∧ ("k", (7 : Nat)) ∈ DictCache.iter (id : Nat → Nat) [("k", (7, 0))]
      ∧ (DictCache.iter (id : Nat → Nat) [("k", (7, 0))]).length
          = DictCache.len [("k", ((7 : Nat), (0 : Int)))])
    ∧ (("k", (7 : Nat)) ∈ SqliteCache.iter (id : Nat → Nat) [("k", (7, 0))])
    ∧ (globMatchCache "/tmp" "/tmp/.cache.ab.gz" = true
      ∧ ("/tmp/.cache.ab.gz", (7 : Nat))
          ∈ IOCache.iter (fun b => ((b : Nat), (0 : Int)))
              [("/tmp/.cache.ab.gz", (7 : Nat))] "/tmp") := by
  have h := c10_iterate_includes_expired (id : Nat → Nat) (fun b => ((b : Nat), (0 : Int)))
    [("k", (7, 0))] [("k", (7, 0))] [("/tmp/.cache.ab.gz", (7 : Nat))] "/tmp"
  refine ⟨⟨by decide, ?_, h.1.1⟩, ?_, by decide, ?_⟩
  · exact h.1.2 "k" 7 0 (by decide)
  · exact h.2.1.2 "k" 7 0 (by decide)
  · exact h.2.2.2 "/tmp/.cache.ab.gz" 7 (by decide) (by decide)

/-- C4 counterexample: in the file backend the key component yielded by
`iterate()` is the FILENAME, not the key — after `set("ab", 7)` on an empty
IOCache under `/tmp`, iteration yields `("/tmp/.cache.ab.gz", 7)` and the key
`"ab"` does not appear as a key component. -/
theorem c4_iokey_counterexample :
    "ab" ∉ (IOCache.iter (fun b => ((b : Nat), (0 : Int)))
        (IOCache.setitem (fun p => p.1) [] "/tmp" "ab" 7 9) "/tmp").map Prod.fst
    ∧ (IOCache.iter (fun b => ((b : Nat), (0 : Int)))
        (IOCache.setitem (fun p => p.1) [] "/tmp" "ab" 7 9) "/tmp").map Prod.fst
      = ["/tmp/.cache.ab.gz"] := by
  refine ⟨by decide, by decide⟩

/-- C4 amended: after `set(k, v)` the key `k` appears as a key component of
`iterate()` in the dict and sqlite backends, while in the file backend it is
the derived filename of `k` that appears (and `delete` consumes that
filename); after a successful `delete`, the deleted key component no longer
appears (for sqlite unconditionally, for dict/io given the unique-keys store
invariant); and in every backend `size()` equals the number of pairs yielded
by `iterate()`. -/
theorem c4_amended_set_delete_iterate {α : Type u} {β : Type v} (dumps : α → β)
    (loads : β → α) (dumpsPair : α × Int → β) (loadsPair : β → α × Int)
    (kv rows : List (String × β × Int)) (dir : List (String × β))
    (tmpdir key fname : String) (value : α) (expiration : Int) :
    (key ∈ (DictCache.iter loads (DictCache.setitem dumps kv key value expiration)).map Prod.fst
      ∧ (KeysNodup kv → ∀ kv', DictCache.delitem kv key = some kv' →
          key ∉ (DictCache.iter loads kv').map Prod.fst)
      ∧ (DictCache.iter loads kv).length = DictCache.len kv)
    ∧ (key ∈ (SqliteCache.iter loads (SqliteCache.setitem dumps rows key value expiration)).map Prod.fst
      ∧ key ∉ (SqliteCache.iter loads (SqliteCache.delitem rows key)).map Prod.fst
      ∧ (SqliteCache.iter loads rows).length = SqliteCache.len rows)
    ∧ (IOCache.key_to_filename tmpdir key
        ∈ (IOCache.iter loadsPair
            (IOCache.setitem dumpsPair dir tmpdir key value expiration) tmpdir).map Prod.fst
      ∧ (KeysNodup dir → ∀ dir', IOCache.delitem dir fname = some dir' →
          fname ∉ (IOCache.iter loadsPair dir' tmpdir).map Prod.fst)
      ∧ (IOCache.iter loadsPair dir tmpdir).length = IOCache.len dir tmpdir) := by
  refine ⟨⟨?_, ?_, ?_⟩, ⟨?_, ?_, ?_⟩, ⟨?_, ?_, ?_⟩⟩
  · refine List.mem_map.mpr ⟨(key, loads (dumps value, expiration).1), ?_, rfl⟩
    exact List.mem_map.mpr ⟨(key, (dumps value, expiration)), mem_assocSet_self _ _ _, rfl⟩
  · intro hnd kv' hdel hmem
    rw [DictCache.delitem, removeOrFail] at hdel
    rcases hfind : assocFind kv key with _ | b
    · rw [hfind] at hdel
      exact Option.noConfusion hdel
    · rw [hfind] at hdel
      obtain rfl : assocErase1 kv key = kv' := Option.some.injEq _ _ ▸ hdel
      have hkeys : key ∈ (assocErase1 kv key).map Prod.fst := by
        simpa [DictCache.iter, List.map_map, Function.comp] using hmem
      exact not_mem_keys_assocErase1 kv key hnd hkeys
  · simp [DictCache.iter, DictCache.len]
  · refine List.mem_map.mpr ⟨(key, loads (dumps value, expiration).1), ?_, rfl⟩
    refine List.mem_map.mpr ⟨(key, (dumps value, expiration)), ?_, rfl⟩
    rw [SqliteCache.setitem]
    exact List.mem_append.mpr (Or.inr (by simp))
  · intro hmem
    have hkeys : key ∈ (assocEraseAll rows key).map Prod.fst := by
      simpa [SqliteCache.iter, SqliteCache.delitem, List.map_map, Function.comp] using hmem
    exact not_mem_keys_assocEraseAll rows key hkeys
  · simp [SqliteCache.iter, SqliteCache.len]
  · refine List.mem_map.mpr ⟨(IOCache.key_to_filename tmpdir key,
      (loadsPair (dumpsPair (value, expiration))).1), ?_, rfl⟩
    refine List.mem_map.mpr ⟨(IOCache.key_to_filename tmpdir key,
      dumpsPair (value, expiration)), ?_, rfl⟩
    refine List.mem_filter.mpr ⟨?_, globMatchCache_key_to_filename tmpdir key⟩
    exact mem_assocSet_self _ _ _
  · intro hnd dir' hdel hmem
    rw [IOCache.delitem, removeOrFail] at hdel
    rcases hfind : assocFind dir fname with _ | b
    · rw [hfind] at hdel
      exact Option.noConfusion hdel
    · rw [hfind] at hdel
      obtain rfl : assocErase1 dir fname = dir' := Option.some.injEq _ _ ▸ hdel
      obtain ⟨q, hq, hq2⟩ := List.mem_map.mp hmem
      obtain ⟨p, hp, hp2⟩ := List.mem_map.mp hq
      subst hp2
      exact not_mem_keys_assocErase1 dir fname hnd
        (List.mem_map.mpr ⟨p, (List.mem_filter.mp hp).1, hq2⟩)
  · simp [IOCache.iter, IOCache.len]

/-- Witness for the amended C4 at concrete one-key stores in all three
backends, with `tmpdir = "/tmp"` and key `"ab"`. -/
theorem c4_amended_set_delete_iterate_witness :
    ("ab" ∈ (DictCache.iter (id : Nat → Nat)
        (DictCache.setitem id [] "ab" 7 9)).map Prod.fst)
    ∧ (KeysNodup [("ab", ((7 : Nat), (9 : Int)))]
      ∧ DictCache.delitem [("ab", ((7 : Nat), (9 : Int)))] "ab" = some []
      ∧ "ab" ∉ (DictCache.iter (id : Nat → Nat) []).map Prod.fst)
    ∧ ("ab" ∉ (SqliteCache.iter (id : Nat → Nat)
        (SqliteCache.delitem [("ab", ((7 : Nat), (9 : Int)))] "ab")).map Prod.fst)
    ∧ ("/tmp/.cache.ab.gz" ∈ (IOCache.iter (fun b => ((b : Nat), (0 : Int)))
        (IOCache.setitem (fun p => p.1) [] "/tmp" "ab" 7 9) "/tmp").map Prod.fst) := by
  have h := c4_amended_set_delete_iterate (id : Nat → Nat) (id : Nat → Nat)
    (fun p => p.1) (fun b => ((b : Nat), (0 : Int)))
    [] [("ab", ((7 : Nat), (9 : Int)))] [] "/tmp" "ab" "x" 7 9
  have h2 := c4_amended_set_delete_iterate (id : Nat → Nat) (id : Nat → Nat)
    (fun p => p.1) (fun b => ((b : Nat), (0 : Int)))
    [("ab", ((7 : Nat), (9 : Int)))] [] [] "/tmp" "ab" "x" 7 9
  refine ⟨h.1.1, ⟨by simp [KeysNodup], by decide, ?_⟩, h.2.1.2.1, ?_⟩
  · exact h2.1.2.1 (by simp [KeysNodup]) [] (by decide)
  · have hio : IOCache.key_to_filename "/tmp" "ab" = "/tmp/.cache.ab.gz" := by decide
    exact hio ▸ h.2.2.1

/-! Bust lemmas for C9. -/

section BustLemmas

variable {α : Type u} {β : Type v} {γ : Type v}

theorem dict_iter_keys (loads : β → α) (kv : List (String × β × Int)) :
    (DictCache.iter loads kv).map Prod.fst = kv.map Prod.fst := by
  induction kv with
  | nil => rfl
  | cons p l ih => simp [DictCache.iter, ih] at *

theorem sqlite_iter_keys (loads : β → α) (rows : List (String × β × Int)) :
    (SqliteCache.iter loads rows).map Prod.fst = rows.map Prod.fst := by
  induction rows with
  | nil => rfl
  | cons p l ih => simp [SqliteCache.iter, ih] at *

theorem bustList_removeOrFail_all :
    ∀ (l : List (String × γ)), bustList removeOrFail l (l.map Prod.fst) = some [] := by
  intro l
  induction l with
  | nil => rfl
  | cons p l ih =>
    obtain ⟨a, b⟩ := p
    rw [List.map_cons, bustList, removeOrFail_cons_self]
    exact ih

theorem mem_glob_keys_match (dir : List (String × γ)) (tmpdir k : String)
    (h : k ∈ (IOCache.glob dir tmpdir).map Prod.fst) :
    globMatchCache tmpdir k = true := by
  obtain ⟨p, hp, hp2⟩ := List.mem_map.mp h
  subst hp2
  exact (List.mem_filter.mp hp).2

theorem bustList_removeOrFail_cons_ne (a : String) (b : γ) (l : List (String × γ))
    (ks : List String) (h : ∀ k ∈ ks, k ≠ a) :
    bustList removeOrFail ((a, b) :: l) ks
      = Option.map (fun l2 => (a, b) :: l2) (bustList removeOrFail l ks) := by
  induction ks generalizing l with
  | nil => rfl
  | cons k ks ih =>
    have hk : k ≠ a := h k (by simp)
    rcases hfind : assocFind l k with _ | c
    · simp [bustList, removeOrFail, assocFind_cons, hk, hfind]
    · simp only [bustList, removeOrFail, assocFind_cons, if_neg hk, hfind,
        assocErase1_cons_ne a b l k hk]
      exact ih (assocErase1 l k) (fun x hx => h x (by simp [hx]))

theorem bustList_io_glob (tmpdir : String) :
    ∀ (dir : List (String × γ)),
      bustList removeOrFail dir ((IOCache.glob dir tmpdir).map Prod.fst)
        = some (dir.filter (fun p => !globMatchCache tmpdir p.1)) := by
  intro dir
  induction dir with
  | nil => rfl
  | cons p dir ih =>
    obtain ⟨a, b⟩ := p
    cases hm : globMatchCache tmpdir a
    · have hne : ∀ k ∈ (IOCache.glob dir tmpdir).map Prod.fst, k ≠ a := by
        intro k hk heq
        subst heq
        rw [mem_glob_keys_match dir tmpdir k hk] at hm
        exact Bool.noConfusion hm
      have hglob : IOCache.glob ((a, b) :: dir) tmpdir = IOCache.glob dir tmpdir := by
        simp [IOCache.glob, List.filter_cons, hm]
      rw [hglob, bustList_removeOrFail_cons_ne a b dir _ hne, ih]
      simp [List.filter_cons, hm]
    · have hglob : IOCache.glob ((a, b) :: dir) tmpdir = (a, b) :: IOCache.glob dir tmpdir := by
        simp [IOCache.glob, List.filter_cons, hm]
      rw [hglob, List.map_cons, bustList, removeOrFail_cons_self]
      show bustList removeOrFail dir ((IOCache.glob dir tmpdir).map Prod.fst)
          = some (List.filter (fun p => !globMatchCache tmpdir p.1) ((a, b) :: dir))
      rw [ih]
      simp [List.filter_cons, hm]

theorem glob_filter_not (dir : List (String × γ)) (tmpdir : String) :
    IOCache.glob (dir.filter (fun p => !globMatchCache tmpdir p.1)) tmpdir = [] := by
  induction dir with
  | nil => rfl
  | cons p dir ih =>
    cases hm : globMatchCache tmpdir p.1 <;>
      simp [IOCache.glob, List.filter_cons, hm] at ih ⊢

theorem bustList_eraseAll_all :
    ∀ (ks : List String) (st : List (String × γ)),
      (∀ x ∈ st.map Prod.fst, x ∈ ks) →
      bustList (fun st k => some (assocEraseAll st k)) st ks = some [] := by
  intro ks
  induction ks with
  | nil =>
    intro st h
    cases st with
    | nil => rfl
    | cons p st => exact absurd (h p.1 (by simp)) (by simp)
  | cons k ks ih =>
    intro st h
    rw [bustList]
    apply ih
    intro x hx
    have hmem := mem_keys_assocEraseAll st k x hx
    have hne : x ≠ k := fun he => not_mem_keys_assocEraseAll st k (he ▸ hx)
    have hx2 := h x hmem
    simp only [List.mem_cons] at hx2
    rcases hx2 with hx2 | hx2
    · exact absurd hx2 hne
    · exact hx2

end BustLemmas

/-- C9: `bust()` deletes exactly the entries of the materialized `list(self)`
snapshot: the dict and sqlite stores become empty while the file store keeps
exactly its non-matching files; after a bust the size is 0, and a second
`bust()` raises no error (returns `some`), leaves the store unchanged, and the
size is still 0. -/
theorem c9_bust_idempotent {α : Type u} {β : Type v} (loads : β → α)
    (loadsPair : β → α × Int) (kv rows : List (String × β × Int))
    (dir : List (String × β)) (tmpdir : String) :
    (DictCache.bust loads kv = some []
      ∧ DictCache.len ([] : List (String × β × Int)) = 0
      ∧ DictCache.bust loads ([] : List (String × β × Int)) = some [])
    ∧ (SqliteCache.bust loads rows = some []
      ∧ SqliteCache.len ([] : List (String × β × Int)) = 0
      ∧ SqliteCache.bust loads ([] : List (String × β × Int)) = some [])
    ∧ (IOCache.bust loadsPair tmpdir dir
        = some (dir.filter (fun p => !globMatchCache tmpdir p.1))
      ∧ IOCache.len (dir.filter (fun p => !globMatchCache tmpdir p.1)) tmpdir = 0
      ∧ IOCache.bust loadsPair tmpdir (dir.filter (fun p => !globMatchCache tmpdir p.1))
        = some (dir.filter (fun p => !globMatchCache tmpdir p.1))) := by
  refine ⟨⟨?_, rfl, rfl⟩, ⟨?_, rfl, rfl⟩, ⟨?_, ?_, ?_⟩⟩
  · rw [DictCache.bust, GenericCache.bust, dict_iter_keys]
    exact bustList_removeOrFail_all kv
  · rw [SqliteCache.bust, GenericCache.bust, sqlite_iter_keys]
    exact bustList_eraseAll_all (rows.map Prod.fst) rows (fun x hx => hx)
  · rw [IOCache.bust, GenericCache.bust]
    have hkeys : (IOCache.iter loadsPair dir tmpdir).map Prod.fst
        = (IOCache.glob dir tmpdir).map Prod.fst := by
      simp [IOCache.iter, List.map_map]
    rw [hkeys]
    exact bustList_io_glob tmpdir dir
  · rw [IOCache.len, glob_filter_not]
    rfl
  · rw [IOCache.bust, GenericCache.bust]
    have hkeys : (IOCache.iter loadsPair (dir.filter (fun p => !globMatchCache tmpdir p.1))
        tmpdir).map Prod.fst = [] := by
      simp [IOCache.iter, glob_filter_not]
    rw [hkeys]
    rfl

/-! Wrapper single-call lemmas and call-trace lemmas for C1 and C5. -/

section TraceLemmas

variable {α : Type u} {β : Type v} {ε : Type v} {A : Type u} {σ : Type w}

theorem returned_of_ok (B : Backend σ α) (f : A → FnOutcome ε α) (argsToKey : A → String)
    (ttl : Int) (cs : CacheState σ) (args : A) (now : Int) (v : α)
    (h : B.getitemRaw cs.store (argsToKey args) now = .ok v) :
    returned B f argsToKey ttl cs args now
      = ⟨.ok (some v), { cs with hits := cs.hits + 1 }, false, none⟩ := by
  simp [returned, GenericCache.getitem, h]

theorem returned_of_miss_value (B : Backend σ α) (f : A → FnOutcome ε α)
    (argsToKey : A → String) (ttl : Int) (cs : CacheState σ) (args : A) (now : Int) (v : α)
    (hmiss : B.getitemRaw cs.store (argsToKey args) now = .error .cacheMiss)
    (hf : f args = .value v) :
    returned B f argsToKey ttl cs args now
      = ⟨.ok (some v),
         { cs with misses := cs.misses + 1,
                   store := B.setitem cs.store (argsToKey args) v (now + ttl) },
         true, none⟩ := by
  simp [returned, GenericCache.getitem, hmiss, hf]

theorem returned_of_expired_value (B : Backend σ α) (f : A → FnOutcome ε α)
    (argsToKey : A → String) (ttl : Int) (cs : CacheState σ) (args : A) (now : Int) (v : α)
    (hexp : B.getitemRaw cs.store (argsToKey args) now = .error .expiredKey)
    (hf : f args = .value v) :
    returned B f argsToKey ttl cs args now
      = ⟨.ok (some v),
         { cs with expires := cs.expires + 1,
                   store := B.setitem cs.store (argsToKey args) v (now + ttl) },
         true, none⟩ := by
  simp [returned, GenericCache.getitem, hexp, hf]

theorem runCalls_all_hits (B : Backend σ α) (f : A → FnOutcome ε α)
    (argsToKey : A → String) (ttl : Int) (args : A) (v : α) :
    ∀ (ts : List Int) (cs : CacheState σ),
      (∀ t ∈ ts, B.getitemRaw cs.store (argsToKey args) t = .ok v) →
      runCalls B f argsToKey ttl cs (ts.map (fun t => (args, t)))
        = (ts.map (fun _ => Except.ok (some v)),
           { cs with hits := cs.hits + ts.length }, 0) := by
  intro ts
  induction ts with
  | nil =>
    intro cs h
    simp [runCalls]
  | cons t ts ih =>
    intro cs h
    have hr := returned_of_ok B f argsToKey ttl cs args t v (h t (by simp))
    simp only [List.map_cons, runCalls, hr]
    rw [ih { cs with hits := cs.hits + 1 } (fun s hs => h s (by simp [hs]))]
    have harith : cs.hits + 1 + ts.length = cs.hits + (ts.length + 1) := by omega
    simp [harith]

theorem runCalls_zero_ttl_expires (B : Backend σ α) (f : A → FnOutcome ε α)
    (argsToKey : A → String) (args : A) (v : α)
    (hf : f args = .value v)
    (hlaw : ∀ (st : σ) (e tget : Int),
      B.getitemRaw (B.setitem st (argsToKey args) v e) (argsToKey args) tget
        = if e < tget then .error .expiredKey else .ok v) :
    ∀ (ts : List Int) (tprev : Int) (st : σ) (cs : CacheState σ),
      cs.store = B.setitem st (argsToKey args) v tprev →
      List.Chain (fun a b => a < b) tprev ts →
      (runCalls B f argsToKey 0 cs (ts.map (fun t => (args, t)))).1
          = ts.map (fun _ => Except.ok (some v))
      ∧ (runCalls B f argsToKey 0 cs (ts.map (fun t => (args, t)))).2.2 = ts.length
      ∧ (runCalls B f argsToKey 0 cs (ts.map (fun t => (args, t)))).2.1.expires
          = cs.expires + ts.length
      ∧ (runCalls B f argsToKey 0 cs (ts.map (fun t => (args, t)))).2.1.misses = cs.misses
      ∧ (runCalls B f argsToKey 0 cs (ts.map (fun t => (args, t)))).2.1.hits = cs.hits := by
  intro ts
  induction ts with
  | nil =>
    intro tprev st cs hst hch
    simp [runCalls]
  | cons t ts ih =>
    intro tprev st cs hst hch
    rw [List.chain_cons] at hch
    have hexp : B.getitemRaw cs.store (argsToKey args) t = .error .expiredKey := by
      rw [hst, hlaw]
      simp [hch.1]
    have hr := returned_of_expired_value B f argsToKey 0 cs args t v hexp hf
    simp only [List.map_cons, runCalls, hr]
    have hst2 : (⟨B.setitem cs.store (argsToKey args) v (t + 0), cs.hits, cs.misses,
        cs.expires + 1⟩ : CacheState σ).store = B.setitem cs.store (argsToKey args) v t := by
      simp
    have hrest := ih t cs.store
      ⟨B.setitem cs.store (argsToKey args) v (t + 0), cs.hits, cs.misses, cs.expires + 1⟩
      hst2 hch.2
    refine ⟨?_, ?_, ?_, ?_, ?_⟩
    · simp only [hrest.1]
    · simp only [hrest.2.1]
      simp
      omega
    · simp only [hrest.2.2.1]
      simp
      omega
    · simp only [hrest.2.2.2.1]
    · simp only [hrest.2.2.2.2]

theorem generic_ttl_window_trace (B : Backend σ α) (f : A → FnOutcome ε α)
    (argsToKey : A → String) (args : A) (v : α) (s0 : σ)
    (hf : f args = .value v)
    (hmiss0 : ∀ t, B.getitemRaw s0 (argsToKey args) t = .error .cacheMiss)
    (hlaw : ∀ (st : σ) (e tget : Int),
      B.getitemRaw (B.setitem st (argsToKey args) v e) (argsToKey args) tget
        = if e < tget then .error .expiredKey else .ok v)
    (ttl t0 : Int) (ts : List Int) (hts : ∀ t ∈ ts, t ≤ t0 + ttl) :
    (∀ r ∈ (runCalls B f argsToKey ttl (CacheState.init s0)
        ((t0 :: ts).map (fun t => (args, t)))).1, r = .ok (some v))
    ∧ (runCalls B f argsToKey ttl (CacheState.init s0)
        ((t0 :: ts).map (fun t => (args, t)))).2.2 = 1 := by
  have hr : returned B f argsToKey ttl (CacheState.init s0) args t0
      = ⟨.ok (some v), ⟨B.setitem s0 (argsToKey args) v (t0 + ttl), 0, 1, 0⟩, true, none⟩ := by
    rw [returned_of_miss_value B f argsToKey ttl (CacheState.init s0) args t0 v
      (hmiss0 t0) hf]
    rfl
  have hhits := runCalls_all_hits B f argsToKey ttl args v ts
    ⟨B.setitem s0 (argsToKey args) v (t0 + ttl), 0, 1, 0⟩
    (by
      intro t ht
      show B.getitemRaw (B.setitem s0 (argsToKey args) v (t0 + ttl)) (argsToKey args) t = _
      rw [hlaw]
      simp [not_lt.mpr (hts t ht)])
  simp only [List.map_cons, runCalls, hr]
  constructor
  · intro r hrm
    rw [hhits] at hrm
    simp only [List.mem_cons] at hrm
    rcases hrm with h1 | h1
    · exact h1
    · obtain ⟨t, ht, h2⟩ := List.mem_map.mp h1
      exact h2.symm
  · rw [hhits]
    simp

theorem generic_zero_ttl_trace (B : Backend σ α) (f : A → FnOutcome ε α)
    (argsToKey : A → String) (args : A) (v : α) (s0 : σ)
    (hf : f args = .value v)
    (hmiss0 : ∀ t, B.getitemRaw s0 (argsToKey args) t = .error .cacheMiss)
    (hlaw : ∀ (st : σ) (e tget : Int),
      B.getitemRaw (B.setitem st (argsToKey args) v e) (argsToKey args) tget
        = if e < tget then .error .expiredKey else .ok v)
    (t0 : Int) (ts : List Int) (hch : List.Chain (fun a b => a < b) t0 ts) :
    ((runCalls B f argsToKey 0 (CacheState.init s0)
        ((t0 :: ts).map (fun t => (args, t)))).1
      = (t0 :: ts).map (fun _ => Except.ok (some v)))
    ∧ (runCalls B f argsToKey 0 (CacheState.init s0)
        ((t0 :: ts).map (fun t => (args, t)))).2.2 = ts.length + 1
    ∧ (runCalls B f argsToKey 0 (CacheState.init s0)
        ((t0 :: ts).map (fun t => (args, t)))).2.1.misses = 1
    ∧ (runCalls B f argsToKey 0 (CacheState.init s0)
        ((t0 :: ts).map (fun t => (args, t)))).2.1.expires = ts.length
    ∧ (runCalls B f argsToKey 0 (CacheState.init s0)
        ((t0 :: ts).map (fun t => (args, t)))).2.1.hits = 0 := by
  have hr : returned B f argsToKey 0 (CacheState.init s0) args t0
      = ⟨.ok (some v), ⟨B.setitem s0 (argsToKey args) v (t0 + 0), 0, 1, 0⟩, true, none⟩ := by
    rw [returned_of_miss_value B f argsToKey 0 (CacheState.init s0) args t0 v
      (hmiss0 t0) hf]
    rfl
  have hst : (⟨B.setitem s0 (argsToKey args) v (t0 + 0), 0, 1, 0⟩ : CacheState σ).store
      = B.setitem s0 (argsToKey args) v t0 := by
    simp
  have hrest := runCalls_zero_ttl_expires B f argsToKey args v hf hlaw ts t0 s0
    ⟨B.setitem s0 (argsToKey args) v (t0 + 0), 0, 1, 0⟩ hst hch
  simp only [List.map_cons, runCalls, hr]
  refine ⟨?_, ?_, ?_, ?_, ?_⟩
  · rw [hrest.1]
  · rw [hrest.2.1]
    simp
    omega
  · rw [hrest.2.2.2.1]
  · rw [hrest.2.2.1]
    simp
  · rw [hrest.2.2.2.2]

end TraceLemmas

/-! Backend get-after-set laws shared between the C1 and C5 traces. -/

section BackendLaws

variable {α : Type u} {β : Type v}

theorem dict_empty_miss (dumps : α → β) (loads : β → α) (key : String) (t : Int) :
    (DictCache.backend dumps loads).getitemRaw [] key t = .error .cacheMiss := rfl

theorem dict_getset_law (dumps : α → β) (loads : β → α)
    (hrt : ∀ x, loads (dumps x) = x) (key : String) (v : α) :
    ∀ (st : List (String × β × Int)) (e tget : Int),
      (DictCache.backend dumps loads).getitemRaw
          ((DictCache.backend dumps loads).setitem st key v e) key tget
        = if e < tget then .error .expiredKey else .ok v := by
  intro st e tget
  show DictCache.getitem loads (DictCache.setitem dumps st key v e) key tget = _
  simp [DictCache.getitem, DictCache.setitem, assocFind_assocSet_self, hrt]

theorem sqlite_empty_miss (dumps : α → β) (loads : β → α) (key : String) (t : Int) :
    (SqliteCache.backend dumps loads).getitemRaw [] key t = .error .cacheMiss := rfl

theorem sqlite_getset_law (dumps : α → β) (loads : β → α)
    (hrt : ∀ x, loads (dumps x) = x) (key : String) (v : α) :
    ∀ (st : List (String × β × Int)) (e tget : Int),
      (SqliteCache.backend dumps loads).getitemRaw
          ((SqliteCache.backend dumps loads).setitem st key v e) key tget
        = if e < tget then .error .expiredKey else .ok v := by
  intro st e tget
  show SqliteCache.getitem loads (SqliteCache.setitem dumps st key v e) key tget = _
  have hfind : assocFind (assocEraseAll st key ++ [(key, (dumps v, e))]) key
      = some (dumps v, e) := by
    rw [assocFind_append_of_none _ _ _ (assocFind_assocEraseAll_self st key)]
    simp [assocFind]
  simp [SqliteCache.getitem, SqliteCache.setitem, hfind, hrt]

theorem io_empty_miss (dumpsPair : α × Int → β) (loadsPair : β → α × Int)
    (tmpdir key : String) (t : Int) :
    (IOCache.backend dumpsPair loadsPair tmpdir).getitemRaw [] key t
      = .error .cacheMiss := rfl

theorem io_getset_law (dumpsPair : α × Int → β) (loadsPair : β → α × Int)
    (hrtPair : ∀ p, loadsPair (dumpsPair p) = p) (tmpdir key : String) (v : α) :
    ∀ (st : List (String × β)) (e tget : Int),
      (IOCache.backend dumpsPair loadsPair tmpdir).getitemRaw
          ((IOCache.backend dumpsPair loadsPair tmpdir).setitem st key v e) key tget
        = if e < tget then .error .expiredKey else .ok v := by
  intro st e tget
  show IOCache.getitem loadsPair (IOCache.setitem dumpsPair st tmpdir key v e)
      tmpdir key tget = _
  simp [IOCache.getitem, IOCache.setitem, assocFind_assocSet_self, hrtPair]

end BackendLaws

/-- C1: for a wrapped callable whose computation at `args` returns `v`, any
trace of repeated wrapped calls with identical arguments, the first at `t0`
and the rest within the TTL window `[t0, t0 + ttl]`, returns `v` on every
call, and the underlying function is invoked exactly once — in each of the
three backends, starting from an empty store. -/
theorem c1_window_determinism {α : Type u} {β : Type v} {ε : Type v} {A : Type u}
    (dumps : α → β) (loads : β → α) (dumpsPair : α × Int → β) (loadsPair : β → α × Int)
    (hrt : ∀ x, loads (dumps x) = x) (hrtPair : ∀ p, loadsPair (dumpsPair p) = p)
    (f : A → FnOutcome ε α) (argsToKey : A → String) (args : A) (v : α) (tmpdir : String)
    (hf : f args = .value v) (ttl t0 : Int) (ts : List Int)
    (hts : ∀ t ∈ ts, t0 ≤ t ∧ t ≤ t0 + ttl) :
    ((∀ r ∈ (runCalls (DictCache.backend dumps loads) f argsToKey ttl
        (CacheState.init []) ((t0 :: ts).map (fun t => (args, t)))).1, r = .ok (some v))
      ∧ (runCalls (DictCache.backend dumps loads) f argsToKey ttl
        (CacheState.init []) ((t0 :: ts).map (fun t => (args, t)))).2.2 = 1)
    ∧ ((∀ r ∈ (runCalls (IOCache.backend dumpsPair loadsPair tmpdir) f argsToKey ttl
        (CacheState.init []) ((t0 :: ts).map (fun t => (args, t)))).1, r = .ok (some v))
      ∧ (runCalls (IOCache.backend dumpsPair loadsPair tmpdir) f argsToKey ttl
        (CacheState.init []) ((t0 :: ts).map (fun t => (args, t)))).2.2 = 1)
    ∧ ((∀ r ∈ (runCalls (SqliteCache.backend dumps loads) f argsToKey ttl
        (CacheState.init []) ((t0 :: ts).map (fun t => (args, t)))).1, r = .ok (some v))
      ∧ (runCalls (SqliteCache.backend dumps loads) f argsToKey ttl
        (CacheState.init []) ((t0 :: ts).map (fun t => (args, t)))).2.2 = 1) := by
  have hts2 : ∀ t ∈ ts, t ≤ t0 + ttl := fun t ht => (hts t ht).2
  refine ⟨?_, ?_, ?_⟩
  · exact generic_ttl_window_trace (DictCache.backend dumps loads) f argsToKey args v []
      hf (fun t => dict_empty_miss dumps loads _ t)
      (fun st e tget => dict_getset_law dumps loads hrt _ v st e tget) ttl t0 ts hts2
  · exact generic_ttl_window_trace (IOCache.backend dumpsPair loadsPair tmpdir) f
      argsToKey args v [] hf (fun t => io_empty_miss dumpsPair loadsPair tmpdir _ t)
      (fun st e tget => io_getset_law dumpsPair loadsPair hrtPair tmpdir _ v st e tget)
      ttl t0 ts hts2
  · exact generic_ttl_window_trace (SqliteCache.backend dumps loads) f argsToKey args v []
      hf (fun t => sqlite_empty_miss dumps loads _ t)
      (fun st e tget => sqlite_getset_law dumps loads hrt _ v st e tget) ttl t0 ts hts2

/-- Witness for C1: four wrapped calls at times 0, 3, 7, 10 with ttl 10 on the
concrete Nat DictCache backend all return 7 and invoke the function once. -/
theorem c1_window_determinism_witness :
    (∀ x : Nat, (fun p : Nat × Int => p.1) ((fun n : Nat => ((n, 0) : Nat × Int)) x) = x)
    ∧ ((fun _ : Unit => (FnOutcome.value 7 : FnOutcome (Nat × Int) Nat)) ()
        = FnOutcome.value 7)
    ∧ (∀ t ∈ [(3 : Int), 7, 10], (0 : Int) ≤ t ∧ t ≤ 0 + 10)
    ∧ (runCalls (DictCache.backend (fun n : Nat => ((n, 0) : Nat × Int)) (fun p => p.1))
        (fun _ : Unit => (FnOutcome.value 7 : FnOutcome (Nat × Int) Nat))
        (fun _ => "k") 10 (CacheState.init [])
        (((0 : Int) :: [3, 7, 10]).map (fun t => ((), t)))).2.2 = 1 := by
  refine ⟨fun x => rfl, rfl, by decide, ?_⟩
  exact (c1_window_determinism (fun n : Nat => ((n, 0) : Nat × Int)) (fun p => p.1)
    (id : Nat × Int → Nat × Int) (id : Nat × Int → Nat × Int)
    (fun x => rfl) (fun p => rfl)
    (fun _ : Unit => (FnOutcome.value 7 : FnOutcome (Nat × Int) Nat)) (fun _ => "k") () 7
    "/tmp" rfl 10 0 [3, 7, 10] (by decide)).1.2

/-- C5: for every backend with `ttl = 0` and a strictly advancing clock,
starting from an empty store, the first wrapped call is counted as a miss
(computing and storing the result) and every subsequent call is counted as an
`ExpiredKey` — not a `CacheMiss` — and recomputes: all calls return the value,
the function is invoked on every call, `misses` ends at 1, `expires` at the
number of subsequent calls, and `hits` at 0. -/
theorem c5_zero_ttl_expires {α : Type u} {β : Type v} {ε : Type v} {A : Type u}
    (dumps : α → β) (loads : β → α) (dumpsPair : α × Int → β) (loadsPair : β → α × Int)
    (hrt : ∀ x, loads (dumps x) = x) (hrtPair : ∀ p, loadsPair (dumpsPair p) = p)
    (f : A → FnOutcome ε α) (argsToKey : A → String) (args : A) (v : α) (tmpdir : String)
    (hf : f args = .value v) (t0 : Int) (ts : List Int)
    (hch : List.Chain (fun a b => a < b) t0 ts) :
    (((runCalls (DictCache.backend dumps loads) f argsToKey 0
        (CacheState.init []) ((t0 :: ts).map (fun t => (args, t)))).1
      = (t0 :: ts).map (fun _ => Except.ok (some v)))
      ∧ (runCalls (DictCache.backend dumps loads) f argsToKey 0
        (CacheState.init []) ((t0 :: ts).map (fun t => (args, t)))).2.2 = ts.length + 1
      ∧ (runCalls (DictCache.backend dumps loads) f argsToKey 0
        (CacheState.init []) ((t0 :: ts).map (fun t => (args, t)))).2.1.misses = 1
      ∧ (runCalls (DictCache.backend dumps loads) f argsToKey 0
        (CacheState.init []) ((t0 :: ts).map (fun t => (args, t)))).2.1.expires = ts.length
      ∧ (runCalls (DictCache.backend dumps loads) f argsToKey 0
        (CacheState.init []) ((t0 :: ts).map (fun t => (args, t)))).2.1.hits = 0)
    ∧ (((runCalls (IOCache.backend dumpsPair loadsPair tmpdir) f argsToKey 0
        (CacheState.init []) ((t0 :: ts).map (fun t => (args, t)))).1
      = (t0 :: ts).map (fun _ => Except.ok (some v)))
      ∧ (runCalls (IOCache.backend dumpsPair loadsPair tmpdir) f argsToKey 0
        (CacheState.init []) ((t0 :: ts).map (fun t => (args, t)))).2.2 = ts.length + 1
      ∧ (runCalls (IOCache.backend dumpsPair loadsPair tmpdir) f argsToKey 0
        (CacheState.init []) ((t0 :: ts).map (fun t => (args, t)))).2.1.misses = 1
      ∧ (runCalls (IOCache.backend dumpsPair loadsPair tmpdir) f argsToKey 0
        (CacheState.init []) ((t0 :: ts).map (fun t => (args, t)))).2.1.expires = ts.length
      ∧ (runCalls (IOCache.backend dumpsPair loadsPair tmpdir) f argsToKey 0
        (CacheState.init []) ((t0 :: ts).map (fun t => (args, t)))).2.1.hits = 0)
    ∧ (((runCalls (SqliteCache.backend dumps loads) f argsToKey 0
        (CacheState.init []) ((t0 :: ts).map (fun t => (args, t)))).1
      = (t0 :: ts).map (fun _ => Except.ok (some v)))
      ∧ (runCalls (SqliteCache.backend dumps loads) f argsToKey 0
        (CacheState.init []) ((t0 :: ts).map (fun t => (args, t)))).2.2 = ts.length + 1
      ∧ (runCalls (SqliteCache.backend dumps loads) f argsToKey 0
        (CacheState.init []) ((t0 :: ts).map (fun t => (args, t)))).2.1.misses = 1
      ∧ (runCalls (SqliteCache.backend dumps loads) f argsToKey 0
        (CacheState.init []) ((t0 :: ts).map (fun t => (args, t)))).2.1.expires = ts.length
      ∧ (runCalls (SqliteCache.backend dumps loads) f argsToKey 0
        (CacheState.init []) ((t0 :: ts).map (fun t => (args, t)))).2.1.hits = 0) := by
  refine ⟨?_, ?_, ?_⟩
  · exact generic_zero_ttl_trace (DictCache.backend dumps loads) f argsToKey args v []
      hf (fun t => dict_empty_miss dumps loads _ t)
      (fun st e tget => dict_getset_law dumps loads hrt _ v st e tget) t0 ts hch
  · exact generic_zero_ttl_trace (IOCache.backend dumpsPair loadsPair tmpdir) f
      argsToKey args v [] hf (fun t => io_empty_miss dumpsPair loadsPair tmpdir _ t)
      (fun st e tget => io_getset_law dumpsPair loadsPair hrtPair tmpdir _ v st e tget)
      t0 ts hch
  · exact generic_zero_ttl_trace (SqliteCache.backend dumps loads) f argsToKey args v []
      hf (fun t => sqlite_empty_miss dumps loads _ t)
      (fun st e tget => sqlite_getset_law dumps loads hrt _ v st e tget) t0 ts hch

/-- Witness for C5: three zero-ttl wrapped calls at strictly increasing times
0, 1, 2 on the concrete Nat DictCache backend end with `misses = 1`,
`expires = 2`, `hits = 0`, and three invocations. -/
theorem c5_zero_ttl_expires_witness :
    List.Chain (fun a b => a < b) (0 : Int) [1, 2]
    ∧ (runCalls (DictCache.backend (fun n : Nat => ((n, 0) : Nat × Int)) (fun p => p.1))
        (fun _ : Unit => (FnOutcome.value 7 : FnOutcome (Nat × Int) Nat))
        (fun _ => "k") 0 (CacheState.init [])
        (((0 : Int) :: [1, 2]).map (fun t => ((), t)))).2.1.misses = 1
    ∧ (runCalls (DictCache.backend (fun n : Nat => ((n, 0) : Nat × Int)) (fun p => p.1))
        (fun _ : Unit => (FnOutcome.value 7 : FnOutcome (Nat × Int) Nat))
        (fun _ => "k") 0 (CacheState.init [])
        (((0 : Int) :: [1, 2]).map (fun t => ((), t)))).2.1.expires = 2
    ∧ (runCalls (DictCache.backend (fun n : Nat => ((n, 0) : Nat × Int)) (fun p => p.1))
        (fun _ : Unit => (FnOutcome.value 7 : FnOutcome (Nat × Int) Nat))
        (fun _ => "k") 0 (CacheState.init [])
        (((0 : Int) :: [1, 2]).map (fun t => ((), t)))).2.2 = 3 := by
  have hch : List.Chain (fun a b : Int => a < b) (0 : Int) [1, 2] := by
    norm_num [List.chain_cons]
  have h := c5_zero_ttl_expires (fun n : Nat => ((n, 0) : Nat × Int)) (fun p => p.1)
    (id : Nat × Int → Nat × Int) (id : Nat × Int → Nat × Int)
    (fun x => rfl) (fun p => rfl)
    (fun _ : Unit => (FnOutcome.value 7 : FnOutcome (Nat × Int) Nat)) (fun _ => "k") () 7
    "/tmp" rfl 0 [1, 2] hch
  exact ⟨hch, h.1.2.2.1, h.1.2.2.2.1, h.1.2.1⟩

end Cachet
